import Mathlib

/-!
Verification development for the `yank` key-value clipboard store.

The repository contains two variants of the handler logic:
`src/handler.rs` (the module imported by `src/main.rs`) and `src/lib.rs`
(an alternate all-in-one variant of the same program).  Both are embedded
below, in the namespaces `handler` and `librs` respectively; operations
whose bodies are identical in the two files (`get_value`, `list_keys`,
`load_data`, `save_data` and the in-memory mutation performed by
`set_value`) are defined once, shared.

Side effects are made explicit: every operation returns, besides its
`Result`, the ordered list of observable events it performs (stdout and
stderr lines, file writes, helper-process spawns, in-process clipboard
sets).  External collaborators (the file system, `serde_json`ʼs parser,
the environment variables, the clipboard helpers and the `arboard`
library) are modelled as inputs: an `Env` record of outcome flags and a
`parse` function.
-/

namespace Yank

/-- JSON values as stored by `serde_json::Value`.  Objects are modelled as
association lists of key-value pairs; `serde_json` numbers are modelled as
integers, which covers every number the program itself ever writes (it only
writes strings) and the hand-edited integer values the spec mentions. -/
inductive Json where
  | null
  | bool (b : Bool)
  | num (n : Int)
  | str (s : String)
  | arr (elems : List Json)
  | obj (fields : List (String × Json))
deriving Repr

/-- Lookup of a key in an object's field list, as `serde_json::Map::get`. -/
def lookupField : List (String × Json) → String → Option Json
  | [], _ => none
  | (k', v) :: rest, k => if k' = k then some v else lookupField rest k

/-- Insert-or-replace of a key, as `serde_json::Map::insert`. -/
def insertField : List (String × Json) → String → Json → List (String × Json)
  | [], k, v => [(k, v)]
  | (k', v') :: rest, k, v =>
    if k' = k then (k, v) :: rest else (k', v') :: insertField rest k v

/-- Removal of a key, as `serde_json::Map::remove` (keys are unique in a
`serde_json::Map`, so removing the first occurrence is faithful). -/
def eraseField : List (String × Json) → String → List (String × Json)
  | [], _ => []
  | (k', v') :: rest, k => if k' = k then rest else (k', v') :: eraseField rest k

/-- The accessor `Value::get(key)`: a field lookup on objects, `None` on
every other kind of value. -/
def Json.get (data : Json) (key : String) : Option Json :=
  match data with
  | .obj m => lookupField m key
  | _ => none

/-- The accessor `Value::as_object()`. -/
def Json.asObject (data : Json) : Option (List (String × Json)) :=
  match data with
  | .obj m => some m
  | _ => none

/-- One hex digit, lowercase, as used by `serde_json` in `\u` escapes. -/
def hexDigit (n : Nat) : String :=
  if n = 0 then "0" else if n = 1 then "1" else if n = 2 then "2"
  else if n = 3 then "3" else if n = 4 then "4" else if n = 5 then "5"
  else if n = 6 then "6" else if n = 7 then "7" else if n = 8 then "8"
  else if n = 9 then "9" else if n = 10 then "a" else if n = 11 then "b"
  else if n = 12 then "c" else if n = 13 then "d" else if n = 14 then "e"
  else "f"

/-- JSON string escaping of a single character, following `serde_json`:
quote and backslash get two-character escapes, the five named control
characters get their short forms, the remaining control characters get
`\u00xx`, everything else is emitted verbatim. -/
def jsonEscapeChar (c : Char) : String :=
  if c = '"' then "\\\""
  else if c = '\\' then "\\\\"
  else if c = '\x08' then "\\b"
  else if c = '\x09' then "\\t"
  else if c = '\x0a' then "\\n"
  else if c = '\x0c' then "\\f"
  else if c = '\x0d' then "\\r"
  else if c.toNat < 0x20 then "\\u00" ++ hexDigit (c.toNat / 16) ++ hexDigit (c.toNat % 16)
  else String.singleton c

/-- JSON string literal syntax for `s`, as produced by `serde_json`. -/
def jsonQuote (s : String) : String :=
  "\"" ++ String.join (s.data.map jsonEscapeChar) ++ "\""

mutual

/-- Compact serialization of a JSON value, as `serde_json`ʼs `Display`
implementation used by `Value::to_string()`. -/
def Json.compact : Json → String
  | .null => "null"
  | .bool true => "true"
  | .bool false => "false"
  | .num n => toString n
  | .str s => jsonQuote s
  | .arr es => "[" ++ Json.compactArr es ++ "]"
  | .obj fs => "\x7b" ++ Json.compactObj fs ++ "\x7d"

/-- Comma-separated compact serialization of array elements. -/
def Json.compactArr : List Json → String
  | [] => ""
  | [e] => Json.compact e
  | e :: es => Json.compact e ++ "," ++ Json.compactArr es

/-- Comma-separated compact serialization of object fields. -/
def Json.compactObj : List (String × Json) → String
  | [] => ""
  | [(k, v)] => jsonQuote k ++ ":" ++ Json.compact v
  | (k, v) :: fs => jsonQuote k ++ ":" ++ Json.compact v ++ "," ++ Json.compactObj fs

end

/-- The error enum `YankError`, common to both variants (constructor names
lowercased: `noKeyProvided` is `NoKeyProvided`, `ioErr` is `Io`, `jsonErr`
is `Json`, and so on). -/
inductive YankError where
  | noKeyProvided
  | homeDirNotFound
  | ioErr (msg : String)
  | jsonErr (msg : String)
  | clipboard (msg : String)
  | keyNotFound (key : String)
deriving Repr, DecidableEq

/-- Display of a `YankError`, from the `thiserror` format attributes on
the enum. -/
def YankError.message : YankError → String
  | .noKeyProvided => "No key provided"
  | .homeDirNotFound => "Could not find home directory"
  | .ioErr m => "I/O error: " ++ m
  | .jsonErr m => "Failed to parse data file: " ++ m
  | .clipboard m => "Clipboard error: " ++ m
  | .keyNotFound k => "No value found for \x27" ++ k ++ "\x27"

/-- The external clipboard helper programs the code can spawn. -/
inductive Strategy where
  | wlCopy
  | xclip
  | xsel
  | pbcopy
deriving Repr, DecidableEq

/-- Observable side effects, in program order: a `println!` line, an
`eprintln!` line, an `fs::write` of the serialized document to the data
file, a spawn of an external clipboard helper, or an in-process `arboard`
clipboard set. -/
inductive Event where
  | printOut (s : String)
  | printErr (s : String)
  | save (data : Json)
  | exec (s : Strategy)
  | arboardSet (text : String)
deriving Repr

/-- Outcome of `fs::read_to_string` on the data file: its content, a
not-found error, or any other I/O error. -/
inductive ReadResult where
  | content (s : String)
  | notFound
  | ioError (msg : String)
deriving Repr, DecidableEq

/-- The process environment and the outcomes of the external collaborators:
whether `WAYLAND_DISPLAY` and `DISPLAY` are set, whether the build targets
macOS, whether each clipboard helper spawns and exits zero, whether the
in-process `arboard` calls succeed, whether `fs::write` succeeds, whether
the home directory resolves, and what reading the data file yields. -/
structure Env where
  waylandDisplay : Bool
  x11Display : Bool
  macos : Bool
  wlCopyOk : Bool
  xclipOk : Bool
  xselOk : Bool
  pbcopyOk : Bool
  arboardOk : Bool
  arboardErrMsg : String
  writeOk : Bool
  writeErrMsg : String
  homeFound : Bool
  read : ReadResult

/-- `Handler::load_data`, identical in handler.rs and lib.rs: read the
file; on content, parse it (`parse` models `serde_json::from_str`) and
store the parsed value; on not-found, store a fresh empty object; on any
other read error, fail with the I/O error. -/
def load_data (parse : String → Except String Json) : ReadResult → Except YankError Json
  | .content s =>
    match parse s with
    | .ok d => .ok d
    | .error e => .error (.jsonErr e)
  | .notFound => .ok (.obj [])
  | .ioError msg => .error (.ioErr msg)

/-- `Handler::save_data`, identical in both variants: serialize the
document and write it to the data file; the event records the document
written.  A failing write performs no observable write. -/
def save_data (env : Env) (data : Json) : List Event × Except YankError Unit :=
  if env.writeOk then ([.save data], .ok ())
  else ([], .error (.ioErr env.writeErrMsg))

/-- `Handler::get_value`, identical in both variants: look the key up,
fail with `KeyNotFound` if absent; return string values verbatim and any
other value via `Value::to_string()`. -/
def get_value (data : Json) (key : String) : Except YankError String :=
  match data.get key with
  | none => .error (.keyNotFound key)
  | some (.str s) => .ok s
  | some v => .ok v.compact

/-- The in-memory mutation both `set_value` variants perform: insert or
overwrite the key when the document is an object, otherwise replace the
whole document by a fresh single-entry object. -/
def set_data (data : Json) (key value : String) : Json :=
  match data with
  | .obj m => .obj (insertField m key (.str value))
  | _ => .obj [(key, .str value)]

/-- Codepoint comparison of two character lists: the order `Vec::sort`
uses on `String` keys (byte-wise comparison of UTF-8 data, which orders
strings exactly as their codepoint sequences do). -/
def charListLe : List Char → List Char → Bool
  | [], _ => true
  | _ :: _, [] => false
  | a :: as, b :: bs =>
    if a.toNat < b.toNat then true
    else if b.toNat < a.toNat then false
    else charListLe as bs

/-- Byte/codepoint order on strings. -/
def strLe (a b : String) : Bool := charListLe a.data b.data

/-- `Handler::list_keys`, identical in both variants, modelled as the list
of lines printed: the `"No keys stored."` message when the document is not
an object or is an empty object, otherwise the keys sorted ascending
(`keys.sort()` modelled as a sort by byte/codepoint order). -/
def list_keys (data : Json) : List String :=
  match data.asObject with
  | some m =>
    if m.isEmpty then ["No keys stored."]
    else List.insertionSort (fun a b => strLe a b = true) (m.map Prod.fst)
  | none => ["No keys stored."]

namespace handler

/-- `Handler::set_value` of src/handler.rs: mutate the document in memory,
print the success message, and only then save — the message is printed
before the flush, and the call returns the save result. -/
def set_value (env : Env) (data : Json) (key value : String) :
    Json × List Event × Except YankError Unit :=
  let d := set_data data key value
  let s := save_data env d
  (d, Event.printOut "Value set successfully!" :: s.1, s.2)

/-- `Handler::delete_value` of src/handler.rs: when the document is an
object, remove the key (a no-op when absent) and print the deleted message
unconditionally; then call `save_data` unconditionally, object or not. -/
def delete_value (env : Env) (data : Json) (key : String) :
    Json × List Event × Except YankError Unit :=
  match data with
  | .obj m =>
    let d := Json.obj (eraseField m key)
    let s := save_data env d
    (d, Event.printOut "Value deleted successfully!" :: s.1, s.2)
  | d =>
    let s := save_data env d
    (d, s.1, s.2)

/-- `Handler::yank_value` of src/handler.rs: look the value up, print it,
then set the clipboard through the in-process `arboard` API (with a 100 ms
wait deadline), and print the confirmation only on success.  The value is
printed before the clipboard call. -/
def yank_value (env : Env) (data : Json) (key : String) :
    List Event × Except YankError Unit :=
  match get_value data key with
  | .error e => ([], .error e)
  | .ok value =>
    if env.arboardOk then
      ([.printOut value, .arboardSet value, .printOut "Copied to clipboard!"], .ok ())
    else
      ([.printOut value], .error (.clipboard env.arboardErrMsg))

end handler

/-- The message carried by the `Clipboard` error when every helper in the
fallback chain of lib.rs fails. -/
def copyHelpMsg : String :=
  "No clipboard utility found. Please install wl-copy (Wayland), xclip/xsel (X11), or pbcopy (macOS)"

namespace librs

/-- `Handler::copy_to_clipboard` of src/lib.rs: try `wl-copy` when
`WAYLAND_DISPLAY` is set; fall through to `xclip` then `xsel` when
`DISPLAY` is set; then `pbcopy`, compiled in only on macOS; the first
helper that spawns and exits zero wins, and if none does the call fails
with the `Clipboard` error.  The trace records each helper spawned, in
order.  The text being copied does not influence the control flow. -/
def copy_to_clipboard (env : Env) (text : String) :
    List Event × Except YankError Unit :=
  let t1 : List Event := if env.waylandDisplay then [Event.exec Strategy.wlCopy] else []
  if env.waylandDisplay && env.wlCopyOk then
    (t1, Except.ok ())
  else
    let t2 := t1 ++ (if env.x11Display then [Event.exec Strategy.xclip] else [])
    if env.x11Display && env.xclipOk then
      (t2, Except.ok ())
    else
      let t3 := t2 ++ (if env.x11Display then [Event.exec Strategy.xsel] else [])
      if env.x11Display && env.xselOk then
        (t3, Except.ok ())
      else
        let t4 := t3 ++ (if env.macos then [Event.exec Strategy.pbcopy] else [])
        if env.macos && env.pbcopyOk then
          (t4, Except.ok ())
        else
          (t4, Except.error (YankError.clipboard copyHelpMsg))

/-- `Handler::set_value` of src/lib.rs: mutate the document in memory,
save, and print the success message only after the save succeeded. -/
def set_value (env : Env) (data : Json) (key value : String) :
    Json × List Event × Except YankError Unit :=
  let d := set_data data key value
  match save_data env d with
  | (ev, .ok ()) => (d, ev ++ [Event.printOut "Value set successfully!"], .ok ())
  | (ev, .error e) => (d, ev, .error e)

/-- `Handler::delete_value` of src/lib.rs: when the document is an object
and the key is present, remove it, save, and print the deleted message
after the save; when the key is absent, print the not-found message and
perform no write; when the document is not an object, do nothing. -/
def delete_value (env : Env) (data : Json) (key : String) :
    Json × List Event × Except YankError Unit :=
  match data with
  | .obj m =>
    if (lookupField m key).isSome then
      let d := Json.obj (eraseField m key)
      match save_data env d with
      | (ev, .ok ()) => (d, ev ++ [Event.printOut "Value deleted successfully!"], .ok ())
      | (ev, .error e) => (d, ev, .error e)
    else
      (Json.obj m, [Event.printOut ("Key \x27" ++ key ++ "\x27 not found")], .ok ())
  | d => (d, [], .ok ())

/-- `Handler::yank_value` of src/lib.rs: look the value up, copy it to the
clipboard, and print the value and the confirmation only after the copy
succeeded; a copy failure is returned with nothing printed to stdout. -/
def yank_value (env : Env) (data : Json) (key : String) :
    List Event × Except YankError Unit :=
  match get_value data key with
  | .error e => ([], .error e)
  | .ok value =>
    match copy_to_clipboard env value with
    | (tr, .ok ()) => (tr ++ [Event.printOut value, Event.printOut "Copied to clipboard!"], .ok ())
    | (tr, .error e) => (tr, .error e)

end librs

/-- The parsed CLI subcommands of src/cli.rs. -/
inductive Command where
  | put (key value : String)
  | delete (key : String)
  | ls
deriving Repr

/-- The parsed CLI surface of src/cli.rs: an optional positional key and an
optional subcommand. -/
structure CliArgs where
  key : Option String
  command : Option Command

/-- The function `run` of src/main.rs, which dispatches to the handler of
src/handler.rs: construct the handler (failing when the home directory
cannot be resolved), load the data file, then run the requested operation;
with neither key nor subcommand it prints `No key provided` to stderr and
returns `Ok`.  Directory creation in `Handler::new` is modelled as
succeeding. -/
def run (env : Env) (parse : String → Except String Json) (cli : CliArgs) :
    List Event × Except YankError Unit :=
  if env.homeFound then
    match load_data parse env.read with
    | .error e => ([], .error e)
    | .ok data =>
      match cli.command with
      | some .ls => ((list_keys data).map Event.printOut, .ok ())
      | some (.put k v) =>
        let r := handler.set_value env data k v
        (r.2.1, r.2.2)
      | some (.delete k) =>
        let r := handler.delete_value env data k
        (r.2.1, r.2.2)
      | none =>
        match cli.key with
        | some k => handler.yank_value env data k
        | none => ([Event.printErr "No key provided"], .ok ())
  else ([], .error .homeDirNotFound)

/-- The function `main` of src/main.rs, returning the events and the
process exit code: on an error from `run`, print its message to stderr and
exit 1; otherwise exit 0. -/
def main_fn (env : Env) (parse : String → Except String Json) (cli : CliArgs) :
    List Event × Nat :=
  match run env parse cli with
  | (ev, .ok ()) => (ev, 0)
  | (ev, .error e) => (ev ++ [Event.printErr e.message], 1)

/-- A baseline environment: home directory found, writes succeed, no data
file yet, no display environment variables set, not macOS, no clipboard
helper available, and a working in-process `arboard` clipboard. -/
def envA : Env where
  waylandDisplay := false
  x11Display := false
  macos := false
  wlCopyOk := false
  xclipOk := false
  xselOk := false
  pbcopyOk := false
  arboardOk := true
  arboardErrMsg := "platform clipboard unavailable"
  writeOk := true
  writeErrMsg := "permission denied"
  homeFound := true
  read := ReadResult.notFound

/-- An environment where every display signal is present but every
external helper fails, while the in-process `arboard` API works. -/
def envHelpersFail : Env :=
  { envA with waylandDisplay := true, x11Display := true, macos := true }

/-- An environment running under Wayland with a working `wl-copy`. -/
def envWl : Env := { envA with waylandDisplay := true, wlCopyOk := true }

/-- An environment whose data-file write fails. -/
def envNoWrite : Env := { envA with writeOk := false }

/-- An environment whose in-process `arboard` clipboard fails. -/
def envNoArb : Env := { envA with arboardOk := false }

/-- A model of `serde_json::from_str` on the concrete inputs used below:
`serde_json` parses the two-character document consisting of an opening
and a closing brace to the empty object, and rejects the other inputs used
here as invalid JSON. -/
def parseModel : String → Except String Json := fun s =>
  if s = "\x7b\x7d" then Except.ok (Json.obj [])
  else Except.error "expected value at line 1 column 1"

theorem lookupField_insertField (m : List (String × Json)) (k : String) (v : Json) :
    lookupField (insertField m k v) k = some v := by
  induction m with
  | nil => simp [insertField, lookupField]
  | cons kv rest ih =>
    rcases kv with ⟨k', v'⟩
    by_cases h : k' = k
    · simp [insertField, lookupField, h]
    · simp [insertField, lookupField, h, ih]

theorem get_value_set_data (data : Json) (k v : String) :
    get_value (set_data data k v) k = Except.ok v := by
  cases data <;>
    simp [set_data, get_value, Json.get, lookupField_insertField, lookupField]

theorem charListLe_total (as bs : List Char) :
    charListLe as bs = true ∨ charListLe bs as = true := by
  induction as generalizing bs with
  | nil => exact Or.inl rfl
  | cons a as ih =>
    cases bs with
    | nil => exact Or.inr rfl
    | cons b bs =>
      by_cases h1 : a.toNat < b.toNat
      · exact Or.inl (by simp [charListLe, h1])
      · by_cases h2 : b.toNat < a.toNat
        · exact Or.inr (by simp [charListLe, h2])
        · rcases ih bs with h | h
          · exact Or.inl (by simp [charListLe, h1, h2, h])
          · exact Or.inr (by simp [charListLe, h1, h2, h])

theorem charListLe_trans (as bs cs : List Char) :
    charListLe as bs = true → charListLe bs cs = true → charListLe as cs = true := by
  induction as generalizing bs cs with
  | nil => intro _ _; rfl
  | cons a as ih =>
    intro h1 h2
    cases bs with
    | nil => simp [charListLe] at h1
    | cons b bs =>
      cases cs with
      | nil => simp [charListLe] at h2
      | cons c cs =>
        simp only [charListLe] at h1 h2 ⊢
        by_cases hab : a.toNat < b.toNat
        · by_cases hbc : b.toNat < c.toNat
          · have hac : a.toNat < c.toNat := by omega
            simp [hac]
          · by_cases hcb : c.toNat < b.toNat
            · simp [hbc, hcb] at h2
            · have hac : a.toNat < c.toNat := by omega
              simp [hac]
        · by_cases hba : b.toNat < a.toNat
          · simp [hab, hba] at h1
          · simp [hab, hba] at h1
            by_cases hbc : b.toNat < c.toNat
            · have hac : a.toNat < c.toNat := by omega
              simp [hac]
            · by_cases hcb : c.toNat < b.toNat
              · simp [hbc, hcb] at h2
              · simp [hbc, hcb] at h2
                have h3 : ¬ a.toNat < c.toNat := by omega
                have h4 : ¬ c.toNat < a.toNat := by omega
                simp [h3, h4]
                exact ih bs cs h1 h2

theorem librs.set_value_fst (env : Env) (data : Json) (k v : String) :
    (librs.set_value env data k v).1 = set_data data k v := by
  cases hw : env.writeOk <;> simp [librs.set_value, save_data, hw]

theorem set_data_obj (data : Json) (k v : String) :
    ∃ m, set_data data k v = Json.obj m ∧ lookupField m k = some (Json.str v) := by
  cases data
  case obj m => exact ⟨insertField m k (Json.str v), rfl, lookupField_insertField m k _⟩
  all_goals exact ⟨[(k, Json.str v)], rfl, by simp [lookupField]⟩

theorem copy_trace_no_print (env : Env) (text s : String) :
    Event.printOut s ∉ (librs.copy_to_clipboard env text).1 := by
  rcases env with ⟨w, x, mc, wl, xc, xs, pb, ab, am, wo, wm, hf, rd⟩
  cases w <;> cases x <;> cases mc <;> cases wl <;> cases xc <;> cases xs <;> cases pb <;>
    simp [librs.copy_to_clipboard]

/-- C1 counterexample: in the handler.rs variant (the module main.rs
dispatches to), deleting the key `a` from an empty store prints the
deleted-successfully message — not a not-present report — and performs a
write of the (unchanged) document, contradicting the claim that deleting
an absent key reports not-present and performs no write. -/
theorem C1_counterexample :
    handler.delete_value envA (Json.obj []) "a" =
      (Json.obj [],
       [Event.printOut "Value deleted successfully!", Event.save (Json.obj [])],
       Except.ok ()) := rfl

/-- C1 (amended): in the lib.rs variant, deleting an absent key prints the
not-found message, performs no write, and returns `Ok`; only when the key
is present is the entry removed and the full document persisted (the
deleted message following a successful save). -/
theorem C1_delete_absent_no_write (env : Env) (m : List (String × Json)) (k : String) :
    (lookupField m k = none →
      librs.delete_value env (Json.obj m) k =
        (Json.obj m, [Event.printOut ("Key \x27" ++ k ++ "\x27 not found")], Except.ok ())) ∧
    (∀ v, lookupField m k = some v →
      librs.delete_value env (Json.obj m) k =
        (Json.obj (eraseField m k),
         if env.writeOk then
           [Event.save (Json.obj (eraseField m k)), Event.printOut "Value deleted successfully!"]
         else [],
         if env.writeOk then Except.ok ()
         else Except.error (YankError.ioErr env.writeErrMsg))) := by
  constructor
  · intro h
    simp [librs.delete_value, h]
  · intro v h
    cases hw : env.writeOk <;> simp [librs.delete_value, save_data, h, hw]

/-- C1 witness: deleting the absent key `b` from the store containing only
`a` prints the not-found message and writes nothing, while deleting the
present key `a` removes it and persists the emptied document. -/
theorem C1_witness :
    librs.delete_value envA (Json.obj [("a", Json.str "1")]) "b" =
      (Json.obj [("a", Json.str "1")],
       [Event.printOut ("Key \x27b\x27 not found")], Except.ok ()) ∧
    librs.delete_value envA (Json.obj [("a", Json.str "1")]) "a" =
      (Json.obj [],
       [Event.save (Json.obj []), Event.printOut "Value deleted successfully!"],
       Except.ok ()) :=
  ⟨(C1_delete_absent_no_write envA [("a", Json.str "1")] "b").1 rfl,
   (C1_delete_absent_no_write envA [("a", Json.str "1")] "a").2 (Json.str "1") rfl⟩

/-- C3 counterexample: in the handler.rs variant, when the flush to disk
fails, `set_value` has already printed the success message before
attempting the save, contradicting the claim that the success message
happens only after the flush has completed. -/
theorem C3_counterexample :
    handler.set_value envNoWrite (Json.obj []) "k" "v" =
      (Json.obj [("k", Json.str "v")],
       [Event.printOut "Value set successfully!"],
       Except.error (YankError.ioErr "permission denied")) := rfl

/-- C3 (amended): `put` first mutates the in-memory mapping and then
persists the full document synchronously; the successful return happens
only after the flush completed in both variants, and in the lib.rs variant
the success message as well is printed only after the flush (the
handler.rs variant prints it before flushing). -/
theorem C3_put_persists_before_success (env : Env) (data : Json) (k v : String) :
    librs.set_value env data k v =
      (set_data data k v,
       if env.writeOk then
         [Event.save (set_data data k v), Event.printOut "Value set successfully!"]
       else [],
       if env.writeOk then Except.ok ()
       else Except.error (YankError.ioErr env.writeErrMsg)) ∧
    ((handler.set_value env data k v).2.2 = Except.ok () ↔ env.writeOk = true) := by
  cases hw : env.writeOk <;> simp [librs.set_value, handler.set_value, save_data, hw]

/-- C3 witness: with a working file system the lib.rs `set_value` saves and
then prints; with a failing one the handler.rs `set_value` does not return
success. -/
theorem C3_witness :
    librs.set_value envA (Json.obj []) "k" "v" =
      (Json.obj [("k", Json.str "v")],
       [Event.save (Json.obj [("k", Json.str "v")]), Event.printOut "Value set successfully!"],
       Except.ok ()) ∧
    ¬ (handler.set_value envNoWrite (Json.obj []) "k" "v").2.2 = Except.ok () := by
  refine ⟨(C3_put_persists_before_success envA (Json.obj []) "k" "v").1, fun hc => ?_⟩
  have h2 := (C3_put_persists_before_success envNoWrite (Json.obj []) "k" "v").2
  have : envNoWrite.writeOk = true := h2.mp hc
  simp [envNoWrite, envA] at this

/-- C4: invoked with no key and no subcommand on a fresh store, the
program prints `No key provided` to standard error but `run` returns `Ok`,
so the process exits with status 0 — not the non-zero status the claim and
the spec describe (the error variant `NoKeyProvided` exists but is never
returned). -/
theorem C4_no_key_exit_code :
    main_fn envA (fun _ => Except.error "unused") ⟨none, none⟩ =
      ([Event.printErr "No key provided"], 0) := rfl

/-- C5 counterexample: in the handler.rs variant, the looked-up value is
printed to standard output before the clipboard copy is attempted, so on a
clipboard failure the value has already been printed, contradicting the
claim that nothing is printed when the copy fails. -/
theorem C5_counterexample :
    handler.yank_value envNoArb (Json.obj [("k", Json.str "v")]) "k" =
      ([Event.printOut "v"],
       Except.error (YankError.clipboard "platform clipboard unavailable")) := rfl

/-- C5 (amended): in the lib.rs variant the copied value and the
confirmation are printed only after the clipboard copy succeeded; when the
copy fails, nothing is printed to standard output (the trace holds only
helper spawns) and the failure is returned to the caller. -/
theorem C5_yank_prints_only_after_copy (env : Env) (data : Json) (k v : String)
    (h : get_value data k = Except.ok v) :
    (∀ tr, librs.copy_to_clipboard env v = (tr, Except.ok ()) →
      librs.yank_value env data k =
        (tr ++ [Event.printOut v, Event.printOut "Copied to clipboard!"], Except.ok ())) ∧
    (∀ tr e, librs.copy_to_clipboard env v = (tr, Except.error e) →
      librs.yank_value env data k = (tr, Except.error e) ∧
      ∀ s, Event.printOut s ∉ tr) := by
  constructor
  · intro tr hc
    simp [librs.yank_value, h, hc]
  · intro tr e hc
    refine ⟨by simp [librs.yank_value, h, hc], fun s => ?_⟩
    have hn := copy_trace_no_print env v s
    rw [hc] at hn
    simpa using hn

/-- C5 witness: under Wayland with a working `wl-copy` the value and the
confirmation are printed after the copy; with no clipboard strategy
available nothing is printed and the clipboard error is returned. -/
theorem C5_witness :
    librs.yank_value envWl (Json.obj [("k", Json.str "v")]) "k" =
      ([Event.exec Strategy.wlCopy, Event.printOut "v", Event.printOut "Copied to clipboard!"],
       Except.ok ()) ∧
    librs.yank_value envA (Json.obj [("k", Json.str "v")]) "k" =
      ([], Except.error (YankError.clipboard copyHelpMsg)) :=
  ⟨(C5_yank_prints_only_after_copy envWl (Json.obj [("k", Json.str "v")]) "k" "v" rfl).1
      [Event.exec Strategy.wlCopy] rfl,
   ((C5_yank_prints_only_after_copy envA (Json.obj [("k", Json.str "v")]) "k" "v" rfl).2
      [] (YankError.clipboard copyHelpMsg) rfl).1⟩

/-- C6: put followed by get round-trips — after `set_value k v`, `get_value
k` returns `v` for every prior store state and all strings, and a second
`set_value k v2` unconditionally overwrites the first value. -/
theorem C6_put_get_roundtrip (env : Env) (data : Json) (k v v1 v2 : String) :
    get_value (handler.set_value env data k v).1 k = Except.ok v ∧
    get_value (handler.set_value env (handler.set_value env data k v1).1 k v2).1 k =
      Except.ok v2 :=
  ⟨get_value_set_data data k v, get_value_set_data (set_data data k v1) k v2⟩

/-- C2 counterexample: with every display signal present, every external
helper failing, and a working in-process `arboard` clipboard, the lib.rs
copy chain fails with `ClipboardUnavailable` after trying the four
helpers — the in-process native clipboard API is never attempted,
contradicting the claim that it is a strategy of the chain on every
platform. -/
theorem C2_counterexample :
    envHelpersFail.arboardOk = true ∧
    librs.copy_to_clipboard envHelpersFail "x" =
      ([Event.exec Strategy.wlCopy, Event.exec Strategy.xclip, Event.exec Strategy.xsel,
        Event.exec Strategy.pbcopy],
       Except.error (YankError.clipboard copyHelpMsg)) := ⟨rfl, rfl⟩

/-- C2 (amended): the lib.rs copy chain tries, in order, `wl-copy` (only
when the Wayland signal is set), `xclip` then `xsel` (only when the X11
display signal is set), then `pbcopy` (only on macOS); the first success
wins (under Wayland with a working `wl-copy`, nothing else is spawned), it
fails with the `ClipboardUnavailable` message exactly when every available
strategy fails, and no in-process clipboard set ever occurs in the chain
— the in-process API is used only by the alternate handler.rs variant,
which uses it exclusively. -/
theorem C2_copy_fallback_chain (env : Env) (text : String) :
    ((librs.copy_to_clipboard env text).2 = Except.ok () ↔
      (env.waylandDisplay = true ∧ env.wlCopyOk = true) ∨
      (env.x11Display = true ∧ env.xclipOk = true) ∨
      (env.x11Display = true ∧ env.xselOk = true) ∨
      (env.macos = true ∧ env.pbcopyOk = true)) ∧
    ((librs.copy_to_clipboard env text).2 ≠ Except.ok () →
      (librs.copy_to_clipboard env text).2 = Except.error (YankError.clipboard copyHelpMsg)) ∧
    (∀ t, Event.arboardSet t ∉ (librs.copy_to_clipboard env text).1) ∧
    (env.waylandDisplay = true → env.wlCopyOk = true →
      (librs.copy_to_clipboard env text).1 = [Event.exec Strategy.wlCopy]) := by
  rcases env with ⟨w, x, mc, wl, xc, xs, pb, ab, am, wo, wm, hf, rd⟩
  cases w <;> cases x <;> cases mc <;> cases wl <;> cases xc <;> cases xs <;> cases pb <;>
    simp [librs.copy_to_clipboard]

/-- C2 witness: under Wayland with a working `wl-copy`, the copy succeeds
and spawns only `wl-copy`. -/
theorem C2_witness :
    (librs.copy_to_clipboard envWl "x").2 = Except.ok () ∧
    (librs.copy_to_clipboard envWl "x").1 = [Event.exec Strategy.wlCopy] :=
  ⟨(C2_copy_fallback_chain envWl "x").1.mpr (Or.inl ⟨rfl, rfl⟩),
   (C2_copy_fallback_chain envWl "x").2.2.2 rfl rfl⟩

/-- C7 counterexample: loading succeeds with an empty mapping also when
the data file exists and contains the two-character empty-object document,
so an empty result does not happen exactly when the file is absent. -/
theorem C7_counterexample :
    load_data parseModel (ReadResult.content "\x7b\x7d") = Except.ok (Json.obj []) ∧
    ReadResult.content "\x7b\x7d" ≠ ReadResult.notFound :=
  ⟨rfl, fun h => ReadResult.noConfusion h⟩

/-- C7 (amended): a missing data file initializes an empty mapping and is
not an error; a file whose content fails to parse surfaces the parse error
to the caller, never discarded; any other read failure is surfaced as the
I/O error; and a successful empty-mapping load happens only on a missing
file or on content parsing to the empty object. -/
theorem C7_load_error_routing (parse : String → Except String Json) :
    load_data parse ReadResult.notFound = Except.ok (Json.obj []) ∧
    (∀ s e, parse s = Except.error e →
      load_data parse (ReadResult.content s) = Except.error (YankError.jsonErr e)) ∧
    (∀ s d, parse s = Except.ok d → load_data parse (ReadResult.content s) = Except.ok d) ∧
    (∀ m, load_data parse (ReadResult.ioError m) = Except.error (YankError.ioErr m)) ∧
    (∀ r, load_data parse r = Except.ok (Json.obj []) →
      r = ReadResult.notFound ∨
      ∃ s, r = ReadResult.content s ∧ parse s = Except.ok (Json.obj [])) := by
  refine ⟨rfl, ?_, ?_, fun m => rfl, ?_⟩
  · intro s e h
    simp [load_data, h]
  · intro s d h
    simp [load_data, h]
  · intro r h
    cases r with
    | notFound => exact Or.inl rfl
    | content s =>
      refine Or.inr ⟨s, rfl, ?_⟩
      cases hp : parse s with
      | ok d =>
        simp [load_data, hp] at h
        rw [h]
      | error e => simp [load_data, hp] at h
    | ioError m => simp [load_data] at h

/-- C7 witness: a missing file loads as the empty object; invalid JSON
fails with the parse error; another read failure fails with the I/O
error. -/
theorem C7_witness :
    load_data parseModel ReadResult.notFound = Except.ok (Json.obj []) ∧
    load_data parseModel (ReadResult.content "not json") =
      Except.error (YankError.jsonErr "expected value at line 1 column 1") ∧
    load_data parseModel (ReadResult.ioError "denied") =
      Except.error (YankError.ioErr "denied") :=
  ⟨(C7_load_error_routing parseModel).1,
   (C7_load_error_routing parseModel).2.1 "not json" "expected value at line 1 column 1" rfl,
   (C7_load_error_routing parseModel).2.2.2.1 "denied"⟩

/-- C8: on a non-empty object, `list_keys` returns exactly the keys of the
store (a permutation of them) sorted ascending by byte/codepoint order; on
the empty store it prints the `No keys stored.` message; and on the store
mapping `b` to `1` and `a` to `2` it returns `a` then `b`. -/
theorem C8_list_keys_sorted (m : List (String × Json)) (h : m ≠ []) :
    List.Sorted (fun a b => strLe a b = true) (list_keys (Json.obj m)) ∧
    (list_keys (Json.obj m)).Perm (m.map Prod.fst) ∧
    list_keys (Json.obj []) = ["No keys stored."] ∧
    list_keys (Json.obj [("b", Json.str "1"), ("a", Json.str "2")]) = ["a", "b"] := by
  have hE : m.isEmpty = false := by
    cases m with
    | nil => exact absurd rfl h
    | cons a t => rfl
  have hL : list_keys (Json.obj m) =
      List.insertionSort (fun a b => strLe a b = true) (m.map Prod.fst) := by
    simp [list_keys, Json.asObject, hE]
  refine ⟨?_, ?_, rfl, by decide⟩
  · rw [hL]
    exact @List.sorted_insertionSort String (fun a b => strLe a b = true) _
      ⟨fun a b => charListLe_total a.data b.data⟩
      ⟨fun a b c => charListLe_trans a.data b.data c.data⟩ (m.map Prod.fst)
  · rw [hL]
    exact List.perm_insertionSort _ _

/-- C8 witness: the concrete two-entry store has a sorted key listing that
is a permutation of its keys. -/
theorem C8_witness :
    List.Sorted (fun a b => strLe a b = true)
      (list_keys (Json.obj [("b", Json.str "1"), ("a", Json.str "2")])) ∧
    (list_keys (Json.obj [("b", Json.str "1"), ("a", Json.str "2")])).Perm ["b", "a"] :=
  ⟨(C8_list_keys_sorted [("b", Json.str "1"), ("a", Json.str "2")]
      (List.cons_ne_nil _ _)).1,
   (C8_list_keys_sorted [("b", Json.str "1"), ("a", Json.str "2")]
      (List.cons_ne_nil _ _)).2.1⟩

/-- C9: a present key never makes `get_value` fail: a string value is
returned verbatim and any other JSON value is returned as its compact
serialization, as on the concrete store where the number `42` reads back
as the string `42` and the boolean `true` as the string `true`. -/
theorem C9_get_value_coercion (data : Json) (k : String) (v : Json)
    (h : data.get k = some v) :
    get_value data k = Except.ok (match v with | .str s => s | _ => v.compact) ∧
    (∀ s, v = Json.str s → get_value data k = Except.ok s) ∧
    get_value (Json.obj [("n", Json.num 42), ("b", Json.bool true)]) "n" = Except.ok "42" ∧
    get_value (Json.obj [("n", Json.num 42), ("b", Json.bool true)]) "b" = Except.ok "true" := by
  refine ⟨?_, ?_, rfl, rfl⟩
  · cases v <;> simp [get_value, h]
  · intro s hs
    subst hs
    simp [get_value, h]

/-- C9 witness: on the store mapping `k` to the string `v`, the string is
returned verbatim. -/
theorem C9_witness :
    get_value (Json.obj [("k", Json.str "v")]) "k" = Except.ok "v" :=
  ((C9_get_value_coercion (Json.obj [("k", Json.str "v")]) "k" (Json.str "v") rfl).2.1
    "v" rfl)

/-- C10: after `set_value`, the in-memory document is always an object
containing the key with the written string value; and when the loaded
document was not an object, the whole document is replaced by a fresh
single-entry object, which is what gets persisted. -/
theorem C10_put_object_invariant (env : Env) (data : Json) (k v : String) :
    (∃ m, (librs.set_value env data k v).1 = Json.obj m ∧
      lookupField m k = some (Json.str v)) ∧
    (data.asObject = none →
      (librs.set_value env data k v).1 = Json.obj [(k, Json.str v)] ∧
      (env.writeOk = true →
        Event.save (Json.obj [(k, Json.str v)]) ∈ (librs.set_value env data k v).2.1)) := by
  constructor
  · rw [librs.set_value_fst]
    exact set_data_obj data k v
  · intro h
    have hd : set_data data k v = Json.obj [(k, Json.str v)] := by
      cases data <;> first | rfl | simp [Json.asObject] at h
    constructor
    · rw [librs.set_value_fst, hd]
    · intro hw
      simp [librs.set_value, save_data, hw, hd]

/-- C10 witness: putting into a document that was a bare string replaces
it by the single-entry object, which contains the key and is the document
persisted. -/
theorem C10_witness :
    (∃ m, (librs.set_value envA (Json.str "old") "k" "v").1 = Json.obj m ∧
      lookupField m "k" = some (Json.str "v")) ∧
    (librs.set_value envA (Json.str "old") "k" "v").1 = Json.obj [("k", Json.str "v")] ∧
    Event.save (Json.obj [("k", Json.str "v")]) ∈
      (librs.set_value envA (Json.str "old") "k" "v").2.1 :=
  ⟨(C10_put_object_invariant envA (Json.str "old") "k" "v").1,
   ((C10_put_object_invariant envA (Json.str "old") "k" "v").2 rfl).1,
   ((C10_put_object_invariant envA (Json.str "old") "k" "v").2 rfl).2 rfl⟩

end Yank
